import Mathlib

/-!
Verification of the Trading Journal application (src/journal.py).

The development shallowly embeds the Python source: Python numeric values
are modelled by rationals (ℚ), Python's `float(...)` / `int(...)` string
parsing by explicit parsers over `List Char` (covering the finite decimal
literals the application works with), `round(x, 2)` by exact round-half-to-even
at two decimal places, and the dynamically-typed arguments of
`calculate_pnl` by a small `PyVal` type so that parse failures
(`ValueError` / `TypeError`) are representable.  Stateful UI handlers are
embedded as pure functions from their inputs (session state, form fields)
to their results.
-/

namespace Journal

/-- Total commission per 1 round-turn contract (journal.py line 29). -/
def DEFAULT_COMMISSION_PER_CONTRACT : ℚ := 78/100

/-- Total fees per 1 round-turn contract (journal.py line 31). -/
def DEFAULT_FEES_PER_CONTRACT : ℚ := 112/100

/-- Splits a character list into its longest prefix of decimal digits and the rest. -/
def takeDigits : List Char → List Char × List Char
  | [] => ([], [])
  | c :: rest =>
    if c.isDigit then
      let p := takeDigits rest
      (c :: p.1, p.2)
    else ([], c :: rest)

/-- Value of a digit string read in base 10. -/
def digitsToNat (cs : List Char) : ℕ :=
  cs.foldl (fun a c => a * 10 + (c.toNat - 48)) 0

/-- Reads an optional leading sign, returning the sign and the remainder. -/
def takeSign : List Char → ℤ × List Char
  | '-' :: rest => (-1, rest)
  | '+' :: rest => (1, rest)
  | cs => (1, cs)

/-- Parses the optional exponent part accepted by Python `float`
(`e`/`E`, optional sign, at least one digit, nothing after). -/
def parseExponent : List Char → Option ℤ
  | [] => some 0
  | e :: rest =>
    if e = 'e' ∨ e = 'E' then
      let s := takeSign rest
      let d := takeDigits s.2
      if d.1.isEmpty ∨ ¬ d.2.isEmpty then none
      else some (s.1 * (digitsToNat d.1 : ℤ))
    else none

/-- Model of Python `float(s)` on a string: optional sign, decimal digits
with an optional fractional part, optional exponent.  Returns `none` when
Python would raise `ValueError`. -/
def parseFloatStr (s : String) : Option ℚ :=
  let s0 := takeSign s.toList
  let ip := takeDigits s0.2
  let fr : List Char × List Char :=
    match ip.2 with
    | '.' :: rest => takeDigits rest
    | other => ([], other)
  let sawDot : Bool := match ip.2 with
    | '.' :: _ => true
    | _ => false
  if ip.1.isEmpty ∧ (¬ sawDot ∨ fr.1.isEmpty) then none
  else
    match parseExponent fr.2 with
    | none => none
    | some e =>
      let mantissa : ℚ :=
        (s0.1 : ℚ) * ((digitsToNat ip.1 : ℚ) + (digitsToNat fr.1 : ℚ) / 10 ^ fr.1.length)
      some (mantissa * (10 : ℚ) ^ e)

/-- Model of Python `int(s)` on a string: optional sign then at least one
digit and nothing else.  Returns `none` when Python would raise `ValueError`. -/
def parseIntStr (s : String) : Option ℤ :=
  let s0 := takeSign s.toList
  let d := takeDigits s0.2
  if d.1.isEmpty ∨ ¬ d.2.isEmpty then none
  else some (s0.1 * (digitsToNat d.1 : ℤ))

/-- A Python value as it may reach the numeric arguments of
`calculate_pnl`: a string, a number (int or float, both modelled in ℚ),
or `None`. -/
inductive PyVal where
  | vstr : String → PyVal
  | vnum : ℚ → PyVal
  | vnone : PyVal
deriving DecidableEq, Repr

/-- Python `float(v)`: numbers pass through, strings are parsed,
`None` raises `TypeError` (modelled as `none`). -/
def pyFloat : PyVal → Option ℚ
  | .vstr s => parseFloatStr s
  | .vnum q => some q
  | .vnone => none

/-- Truncation toward zero, the behaviour of Python `int(...)` on a float. -/
def pyTrunc (q : ℚ) : ℤ :=
  if 0 ≤ q then ⌊q⌋ else ⌈q⌉

/-- Python `int(v)`: floats truncate toward zero, strings must be integer
literals, `None` raises `TypeError` (modelled as `none`). -/
def pyInt : PyVal → Option ℤ
  | .vstr s => parseIntStr s
  | .vnum q => some (pyTrunc q)
  | .vnone => none

/-- Round-half-to-even to the nearest integer, the rounding used by
Python's builtin `round`. -/
def roundHalfEven (x : ℚ) : ℤ :=
  if Int.fract x < 1/2 then ⌊x⌋
  else if 1/2 < Int.fract x then ⌊x⌋ + 1
  else if ⌊x⌋ % 2 = 0 then ⌊x⌋ else ⌊x⌋ + 1

/-- Model of Python `round(x, 2)`: round-half-to-even at two decimal places. -/
def pyRound2 (x : ℚ) : ℚ :=
  (roundHalfEven (x * 100) : ℚ) / 100

/-- Whether `needle` occurs at the start of `hay`. -/
def seqStartsWith : List Char → List Char → Bool
  | _, [] => true
  | [], _ :: _ => false
  | h :: hs, n :: ns => h = n && seqStartsWith hs ns

/-- Whether `needle` occurs contiguously anywhere in `hay`. -/
def seqContains (hay needle : List Char) : Bool :=
  match hay with
  | [] => needle.isEmpty
  | _ :: rest => seqStartsWith hay needle || seqContains rest needle

/-- Python's `needle in hay` substring test on strings. -/
def strContains (hay needle : String) : Bool :=
  seqContains hay.toList needle.toList

/-- Resolution of the dollar value per point from the instrument name
(journal.py lines 100–107): `"NASDAQ" in instrument` gives 2.00, else
`"ES Futures" in instrument` gives 5.00, else the safety default 1.00. -/
def instrument_point_value (instrument : String) : ℚ :=
  if strContains instrument "NASDAQ" then 2
  else if strContains instrument "ES Futures" then 5
  else 1

/-- Embedding of `calculate_pnl` (journal.py lines 85–126).  The five
numeric conversions of the `try` block are attempted; if any fails the
`except` branch returns `0.0`.  Otherwise the point value is resolved from
the instrument name, the price difference is signed by the direction, and
the rounded net P&L is returned. -/
def calculate_pnl (entry exit : PyVal) (instrument direction : String)
    (contracts commissions fees : PyVal) : ℚ :=
  match pyFloat entry, pyFloat exit, pyInt contracts, pyFloat commissions, pyFloat fees with
  | some entry_price, some exit_price, some num_contracts, some commissions, some fees =>
    let point_value := instrument_point_value instrument
    let price_diff := exit_price - entry_price
    let total_points := if direction = "Short" then price_diff * (-1) else price_diff
    let gross_pnl := total_points * point_value * (num_contracts : ℚ)
    let net_pnl := gross_pnl - commissions - fees
    pyRound2 net_pnl
  | _, _, _, _, _ => 0

/-- A trade record as built by `render_trade_form` (journal.py lines
422–437): the submitted form fields plus the derived `pnl` and the
bookkeeping fields. -/
structure Trade where
  id : String
  date : String
  instrument : String
  direction : String
  contracts : ℤ
  entry : String
  exit : String
  commissions : ℚ
  fees : ℚ
  pnl : ℚ
  setup : String
  notes : String
  tradeImagePath : Option String
  timestamp : String
deriving DecidableEq, Repr

/-- The values collected by the form widgets in `render_trade_form`
(journal.py lines 305–381).  `uploaded` is `none` when no file was chosen,
`some none` when a file was chosen but `save_uploaded_file` failed, and
`some (some p)` when the file was stored at path `p`. -/
structure FormInput where
  date : String
  instrument : String
  direction : String
  contracts : ℤ
  entry : String
  exit : String
  commissions : ℚ
  fees : ℚ
  setup : String
  notes : String
  delete_current_image : Bool
  uploaded : Option (Option String)
deriving DecidableEq, Repr

/-- Python list assignment `l[i] = v` with negative-index wrap-around:
`none` models the `IndexError` raised on an out-of-range index. -/
def list_set_py (l : List Trade) (i : ℤ) (v : Trade) : Option (List Trade) :=
  if 0 ≤ i then
    if i.toNat < l.length then some (l.set i.toNat v) else none
  else
    if (-i).toNat ≤ l.length ∧ 0 < l.length then
      some (l.set (l.length - (-i).toNat) v)
    else none

/-- Embedding of the submission half of `render_trade_form` (journal.py
lines 384–450).  Inputs: the current trade list, the selected trade id
(`None` means a new trade), the form values, the fresh uuid used for a new
trade, and the timestamp.  Returns `none` when the handler stops before
saving (failed image upload, or an `IndexError` on a stale edit index),
otherwise the updated trade list together with the record that was placed
into it. -/
def render_trade_form_submit (trades : List Trade) (selected_id : Option String)
    (inp : FormInput) (fresh_id now : String) : Option (List Trade × Trade) :=
  let is_new := selected_id.isNone
  let selected_trade_data : Option Trade :=
    selected_id.bind (fun sid => trades.find? (fun t => t.id == sid))
  let trade_index : ℤ :=
    match selected_id with
    | none => -1
    | some sid =>
      match trades.findIdx? (fun t => t.id == sid) with
      | some i => (i : ℤ)
      | none => -1
  let current_image_path : Option String :=
    selected_trade_data.bind Trade.tradeImagePath
  let pnl_calculated :=
    calculate_pnl (.vstr inp.entry) (.vstr inp.exit) inp.instrument inp.direction
      (.vnum inp.contracts) (.vnum inp.commissions) (.vnum inp.fees)
  let path_after_delete : Option String :=
    if ¬ is_new ∧ inp.delete_current_image = true then none else current_image_path
  let new_image_path? : Option (Option String) :=
    match inp.uploaded with
    | none => some path_after_delete
    | some none => none
    | some (some p) => some (some p)
  match new_image_path? with
  | none => none
  | some new_image_path =>
    let trade_data : Trade :=
      { id := selected_id.getD fresh_id
        date := inp.date
        instrument := inp.instrument
        direction := inp.direction
        contracts := inp.contracts
        entry := inp.entry
        exit := inp.exit
        commissions := inp.commissions
        fees := inp.fees
        pnl := pnl_calculated
        setup := inp.setup
        notes := inp.notes
        tradeImagePath := new_image_path
        timestamp := now }
    if is_new then some (trades ++ [trade_data], trade_data)
    else (list_set_py trades trade_index trade_data).map (fun l => (l, trade_data))

/-- The cost defaults offered by the form's number inputs (journal.py
lines 287–296 and 329–343): for a new trade `0.78 × contracts` and
`1.12 × contracts`, for an edited trade the stored `commissions`/`fees`
of the selected record (`0.0` when the field is absent). -/
def form_default_costs (is_new : Bool) (selected_trade_data : Option Trade)
    (contracts : ℤ) : ℚ × ℚ :=
  if is_new then
    (DEFAULT_COMMISSION_PER_CONTRACT * (contracts : ℚ),
     DEFAULT_FEES_PER_CONTRACT * (contracts : ℚ))
  else
    ((selected_trade_data.map Trade.commissions).getD 0,
     (selected_trade_data.map Trade.fees).getD 0)

/-- The session state touched by `delete_selected_trade`:
the global trade list and the currently selected trade id. -/
structure SessionState where
  trades : List Trade
  selected_trade_id : Option String
deriving DecidableEq, Repr

/-- Observable outcome of `delete_selected_trade`: the session state after
the call, the argument of the `save_data` call when one happened, and the
image path the handler tried to remove (when it did). -/
structure DeleteResult where
  state : SessionState
  savedData : Option (List Trade)
  removedImage : Option String
deriving DecidableEq, Repr

/-- Python truthiness of the selected trade id
(`if not trade_id_to_delete: return`): `None` and `""` are falsy. -/
def pyTruthyId : Option String → Bool
  | none => false
  | some s => ¬ s.isEmpty

/-- Embedding of `delete_selected_trade` (journal.py lines 138–169).
When the id is falsy, or no trade in the list carries it, nothing happens;
otherwise the first matching record is removed, the shrunk list is saved,
and the selection is reset. -/
def delete_selected_trade (s : SessionState) : DeleteResult :=
  if ¬ pyTruthyId s.selected_trade_id then ⟨s, none, none⟩
  else
    let tid := s.selected_trade_id.getD ""
    match s.trades.findIdx? (fun t => t.id == tid) with
    | none => ⟨s, none, none⟩
    | some i =>
      let remaining := s.trades.eraseIdx i
      ⟨⟨remaining, none⟩, some remaining,
        ((s.trades.get? i).bind Trade.tradeImagePath)⟩

/-! ### Helper lemmas -/

/-- When `x` is not an integer its ceiling is one above its floor. -/
theorem ceil_eq_floor_add_one_of_fract_ne {x : ℚ} (h : Int.fract x ≠ 0) :
    ⌈x⌉ = ⌊x⌋ + 1 := by
  rcases Int.fract_eq_zero_or_add_one_sub_ceil x with h2 | h2
  · exact absurd h2 h
  · have h3 : (⌈x⌉ : ℚ) = ⌊x⌋ + 1 := by
      have h4 := Int.floor_add_fract x
      nlinarith [h2, h4]
    exact_mod_cast h3

/-- Round-half-to-even is an odd function. -/
theorem roundHalfEven_neg (x : ℚ) : roundHalfEven (-x) = - roundHalfEven x := by
  by_cases h0 : Int.fract x = 0
  · have hneg : Int.fract (-x) = 0 := Int.fract_neg_eq_zero.mpr h0
    have hxf : x = (⌊x⌋ : ℚ) := by
      have h4 := Int.self_sub_floor x
      have h5 : x - (⌊x⌋ : ℚ) = 0 := by rw [h4, h0]
      linarith
    have hceil : ⌈x⌉ = ⌊x⌋ := by
      rw [hxf]; simp
    unfold roundHalfEven
    rw [h0, hneg]
    norm_num [Int.floor_neg, hceil]
  · have hfr := Int.fract_neg h0
    have hceil := ceil_eq_floor_add_one_of_fract_ne h0
    have hfl : ⌊-x⌋ = -⌊x⌋ - 1 := by rw [Int.floor_neg, hceil]; ring
    have hpos : 0 < Int.fract x := lt_of_le_of_ne (Int.fract_nonneg x) (Ne.symm h0)
    have hlt1 : Int.fract x < 1 := Int.fract_lt_one x
    rcases lt_trichotomy (Int.fract x) (1/2) with h | h | h
    · have h2 : ¬ (Int.fract (-x) < 1/2) := by rw [hfr]; linarith
      have h3 : (1:ℚ)/2 < Int.fract (-x) := by rw [hfr]; linarith
      unfold roundHalfEven
      rw [if_pos h, if_neg h2, if_pos h3, hfl]
      ring
    · have h2 : Int.fract (-x) = 1/2 := by rw [hfr, h]; norm_num
      unfold roundHalfEven
      rw [h, h2, hfl]
      simp only [lt_self_iff_false, if_false]
      by_cases hp : ⌊x⌋ % 2 = 0
      · have hp2 : ¬ ((-⌊x⌋ - 1) % 2 = 0) := by omega
        rw [if_pos hp, if_neg hp2]; ring
      · have hp2 : (-⌊x⌋ - 1) % 2 = 0 := by omega
        rw [if_neg hp, if_pos hp2]; ring
    · have h2 : Int.fract (-x) < 1/2 := by rw [hfr]; linarith
      have h3 : ¬ (Int.fract x < 1/2) := by linarith
      unfold roundHalfEven
      rw [if_pos h2, if_neg h3, if_pos h, hfl]
      ring

/-- The two-decimal rounding of `round(x, 2)` is an odd function. -/
theorem pyRound2_neg (x : ℚ) : pyRound2 (-x) = - pyRound2 x := by
  unfold pyRound2
  have h : -x * 100 = -(x * 100) := by ring
  rw [h, roundHalfEven_neg]
  push_cast
  ring

/-- Unfolding of `calculate_pnl` on arguments whose five numeric
conversions all succeed. -/
theorem calculate_pnl_parsed (entry exit : PyVal) (instrument direction : String)
    (contracts commissions fees : PyVal) (e x : ℚ) (c : ℤ) (cm fe : ℚ)
    (he : pyFloat entry = some e) (hx : pyFloat exit = some x)
    (hc : pyInt contracts = some c) (hcm : pyFloat commissions = some cm)
    (hf : pyFloat fees = some fe) :
    calculate_pnl entry exit instrument direction contracts commissions fees =
      pyRound2 ((if direction = "Short" then (x - e) * (-1) else x - e) *
        instrument_point_value instrument * (c : ℚ) - cm - fe) := by
  unfold calculate_pnl
  rw [he, hx, hc, hcm, hf]

/-- Truncation toward zero is the identity on integer values. -/
theorem pyTrunc_intCast (c : ℤ) : pyTrunc ((c : ℤ) : ℚ) = c := by
  unfold pyTrunc
  rcases le_or_lt 0 c with h | h
  · rw [if_pos (by exact_mod_cast h), Int.floor_intCast]
  · have h2 : ((c : ℤ) : ℚ) < 0 := by exact_mod_cast h
    rw [if_neg (not_le.mpr h2), Int.ceil_intCast]

/-- Parse fact used by concrete witnesses: `float("15000") = 15000.0`. -/
theorem parse_vstr_15000 : pyFloat (.vstr "15000") = some 15000 := by
  simp +decide [pyFloat, parseFloatStr, takeSign, takeDigits, digitsToNat, parseExponent]

/-- Parse fact used by concrete witnesses: `float("15010") = 15010.0`. -/
theorem parse_vstr_15010 : pyFloat (.vstr "15010") = some 15010 := by
  simp +decide [pyFloat, parseFloatStr, takeSign, takeDigits, digitsToNat, parseExponent]

/-- Parse fact used by concrete witnesses: `float("14990") = 14990.0`. -/
theorem parse_vstr_14990 : pyFloat (.vstr "14990") = some 14990 := by
  simp +decide [pyFloat, parseFloatStr, takeSign, takeDigits, digitsToNat, parseExponent]

/-- Conversion fact used by concrete witnesses: `int(1) = 1`. -/
theorem pyInt_vnum_one : pyInt (.vnum 1) = some 1 := by
  norm_num [pyInt, pyTrunc]

/-- Conversion fact used by concrete witnesses: `int(2) = 2`. -/
theorem pyInt_vnum_two : pyInt (.vnum 2) = some 2 := by
  norm_num [pyInt, pyTrunc]

/-! ### Claims -/

/-- C1: for every input whose entry and exit price strings, contracts,
commissions, and fees all parse as numbers, `calculate_pnl` returns
`round(signedPoints × pointValue × contracts − commissions − fees, 2)`
where `signedPoints` is `exit − entry` for any direction other than
`"Short"` and `−(exit − entry)` for `"Short"`, and the point value is
resolved from the instrument name. -/
theorem C1_net_pnl_formula (entry exit : PyVal) (instrument direction : String)
    (contracts commissions fees : PyVal) (e x : ℚ) (c : ℤ) (cm fe : ℚ)
    (he : pyFloat entry = some e) (hx : pyFloat exit = some x)
    (hc : pyInt contracts = some c) (hcm : pyFloat commissions = some cm)
    (hf : pyFloat fees = some fe) :
    calculate_pnl entry exit instrument direction contracts commissions fees =
      pyRound2 ((if direction = "Short" then -(x - e) else x - e) *
        instrument_point_value instrument * (c : ℚ) - cm - fe) := by
  rw [calculate_pnl_parsed entry exit instrument direction contracts commissions fees
        e x c cm fe he hx hc hcm hf]
  congr 1
  by_cases hd : direction = "Short" <;> simp [hd]

/-- Witness for C1 at the spec's own test vector:
`computeNetPnL("15000", "14990", "Micro ES Futures", "Short", 2, 0, 0) = 100.00`. -/
theorem C1_witness :
    calculate_pnl (.vstr "15000") (.vstr "14990") "Micro ES Futures" "Short"
      (.vnum 2) (.vnum 0) (.vnum 0) = 100 := by
  rw [C1_net_pnl_formula (.vstr "15000") (.vstr "14990") "Micro ES Futures" "Short"
        (.vnum 2) (.vnum 0) (.vnum 0) 15000 14990 2 0 0
        parse_vstr_15000 parse_vstr_14990 pyInt_vnum_two rfl rfl]
  have h1 : strContains "Micro ES Futures" "NASDAQ" = false := by decide
  have h2 : strContains "Micro ES Futures" "ES Futures" = true := by decide
  norm_num [instrument_point_value, h1, h2, pyRound2, roundHalfEven, Int.fract]

/-- C2: when any of the five numeric conversions fails `calculate_pnl`
returns exactly `0.0`, and on every input the result is either that error
fallback or the rounded arithmetic result — the embedding is a total
function, mirroring that no exception escapes the Python `try` block. -/
theorem C2_fail_soft (entry exit : PyVal) (instrument direction : String)
    (contracts commissions fees : PyVal) :
    ((pyFloat entry = none ∨ pyFloat exit = none ∨ pyInt contracts = none ∨
        pyFloat commissions = none ∨ pyFloat fees = none) →
      calculate_pnl entry exit instrument direction contracts commissions fees = 0) ∧
    (calculate_pnl entry exit instrument direction contracts commissions fees = 0 ∨
      ∃ e x c cm fe, pyFloat entry = some e ∧ pyFloat exit = some x ∧
        pyInt contracts = some c ∧ pyFloat commissions = some cm ∧ pyFloat fees = some fe ∧
        calculate_pnl entry exit instrument direction contracts commissions fees =
          pyRound2 ((if direction = "Short" then (x - e) * (-1) else x - e) *
            instrument_point_value instrument * (c : ℚ) - cm - fe)) := by
  have hfail : (pyFloat entry = none ∨ pyFloat exit = none ∨ pyInt contracts = none ∨
      pyFloat commissions = none ∨ pyFloat fees = none) →
      calculate_pnl entry exit instrument direction contracts commissions fees = 0 := by
    intro h
    unfold calculate_pnl
    cases he : pyFloat entry <;> cases hx : pyFloat exit <;> cases hc : pyInt contracts <;>
      cases hcm : pyFloat commissions <;> cases hf : pyFloat fees <;>
      first
        | rfl
        | (rcases h with h | h | h | h | h <;> simp_all)
  refine ⟨hfail, ?_⟩
  rcases he : pyFloat entry with _ | e
  · exact Or.inl (hfail (Or.inl he))
  rcases hx : pyFloat exit with _ | x
  · exact Or.inl (hfail (Or.inr (Or.inl hx)))
  rcases hc : pyInt contracts with _ | c
  · exact Or.inl (hfail (Or.inr (Or.inr (Or.inl hc))))
  rcases hcm : pyFloat commissions with _ | cm
  · exact Or.inl (hfail (Or.inr (Or.inr (Or.inr (Or.inl hcm)))))
  rcases hf : pyFloat fees with _ | fe
  · exact Or.inl (hfail (Or.inr (Or.inr (Or.inr (Or.inr hf)))))
  exact Or.inr ⟨e, x, c, cm, fe, rfl, rfl, rfl, rfl, rfl,
    calculate_pnl_parsed entry exit instrument direction contracts commissions fees
      e x c cm fe he hx hc hcm hf⟩

/-- Witness for C2 at the spec's own test vector: an unparsable entry
price makes the function return `0.0`. -/
theorem C2_witness :
    calculate_pnl (.vstr "abc") (.vstr "15010") "Micro NASDAQ Futures" "Long"
      (.vnum 1) (.vnum 0) (.vnum 0) = 0 :=
  (C2_fail_soft (.vstr "abc") (.vstr "15010") "Micro NASDAQ Futures" "Long"
      (.vnum 1) (.vnum 0) (.vnum 0)).1
    (Or.inl (by simp +decide [pyFloat, parseFloatStr, takeSign, takeDigits, parseExponent]))

/-- C3: the point value is 2.00 when the instrument contains "NASDAQ"
(this test takes precedence), otherwise 5.00 when it contains
"ES Futures", otherwise 1.00; and
`computeNetPnL("15000", "15010", "Unknown Instrument", "Long", 1, 1, 1) = 8.00`. -/
theorem C3_point_value_resolution :
    (∀ instrument : String,
      (strContains instrument "NASDAQ" = true →
        instrument_point_value instrument = 2) ∧
      (strContains instrument "NASDAQ" = false → strContains instrument "ES Futures" = true →
        instrument_point_value instrument = 5) ∧
      (strContains instrument "NASDAQ" = false → strContains instrument "ES Futures" = false →
        instrument_point_value instrument = 1)) ∧
    calculate_pnl (.vstr "15000") (.vstr "15010") "Unknown Instrument" "Long"
      (.vnum 1) (.vnum 1) (.vnum 1) = 8 := by
  constructor
  · intro instrument
    refine ⟨fun h => ?_, fun h1 h2 => ?_, fun h1 h2 => ?_⟩
    · unfold instrument_point_value; rw [if_pos h]
    · unfold instrument_point_value; rw [if_neg (by simp [h1]), if_pos h2]
    · unfold instrument_point_value; rw [if_neg (by simp [h1]), if_neg (by simp [h2])]
  · rw [calculate_pnl_parsed (.vstr "15000") (.vstr "15010") "Unknown Instrument" "Long"
          (.vnum 1) (.vnum 1) (.vnum 1) 15000 15010 1 1 1
          parse_vstr_15000 parse_vstr_15010 pyInt_vnum_one rfl rfl]
    have h1 : strContains "Unknown Instrument" "NASDAQ" = false := by decide
    have h2 : strContains "Unknown Instrument" "ES Futures" = false := by decide
    rw [if_neg (by decide : ¬ ("Long" = "Short"))]
    norm_num [instrument_point_value, h1, h2, pyRound2, roundHalfEven, Int.fract]

/-- Witness for C3 at the application's two instrument names and the
spec's unknown-instrument example. -/
theorem C3_witness :
    instrument_point_value "Micro NASDAQ Futures" = 2 ∧
    instrument_point_value "Micro ES Futures" = 5 ∧
    instrument_point_value "Unknown Instrument" = 1 :=
  ⟨(C3_point_value_resolution.1 "Micro NASDAQ Futures").1 (by decide),
   (C3_point_value_resolution.1 "Micro ES Futures").2.1 (by decide) (by decide),
   (C3_point_value_resolution.1 "Unknown Instrument").2.2 (by decide) (by decide)⟩

/-- C4: `calculate_pnl` negates the price difference exactly when the
direction is the literal string `"Short"`; every other direction string
(including `"short"` and `"SHORT"`) is treated as Long and leaves the
price difference unnegated. -/
theorem C4_direction_strict (entry exit : PyVal) (instrument : String)
    (contracts commissions fees : PyVal) (e x : ℚ) (c : ℤ) (cm fe : ℚ)
    (he : pyFloat entry = some e) (hx : pyFloat exit = some x)
    (hc : pyInt contracts = some c) (hcm : pyFloat commissions = some cm)
    (hf : pyFloat fees = some fe) :
    (∀ direction : String, direction ≠ "Short" →
      calculate_pnl entry exit instrument direction contracts commissions fees =
        pyRound2 ((x - e) * instrument_point_value instrument * (c : ℚ) - cm - fe)) ∧
    calculate_pnl entry exit instrument "Short" contracts commissions fees =
      pyRound2 (-(x - e) * instrument_point_value instrument * (c : ℚ) - cm - fe) := by
  constructor
  · intro direction hd
    rw [calculate_pnl_parsed entry exit instrument direction contracts commissions fees
          e x c cm fe he hx hc hcm hf]
    simp [hd]
  · rw [calculate_pnl_parsed entry exit instrument "Short" contracts commissions fees
          e x c cm fe he hx hc hcm hf, if_pos rfl]
    congr 1
    ring

/-- Witness for C4: `"short"` and `"SHORT"` are treated as Long, while
the literal `"Short"` flips the sign. -/
theorem C4_witness :
    calculate_pnl (.vstr "15000") (.vstr "15010") "Micro NASDAQ Futures" "short"
      (.vnum 1) (.vnum 0) (.vnum 0) =
      pyRound2 ((15010 - 15000) * instrument_point_value "Micro NASDAQ Futures" *
        ((1 : ℤ) : ℚ) - 0 - 0) ∧
    calculate_pnl (.vstr "15000") (.vstr "15010") "Micro NASDAQ Futures" "SHORT"
      (.vnum 1) (.vnum 0) (.vnum 0) =
      pyRound2 ((15010 - 15000) * instrument_point_value "Micro NASDAQ Futures" *
        ((1 : ℤ) : ℚ) - 0 - 0) ∧
    calculate_pnl (.vstr "15000") (.vstr "15010") "Micro NASDAQ Futures" "Short"
      (.vnum 1) (.vnum 0) (.vnum 0) =
      pyRound2 (-(15010 - 15000) * instrument_point_value "Micro NASDAQ Futures" *
        ((1 : ℤ) : ℚ) - 0 - 0) :=
  ⟨(C4_direction_strict (.vstr "15000") (.vstr "15010") "Micro NASDAQ Futures"
      (.vnum 1) (.vnum 0) (.vnum 0) 15000 15010 1 0 0
      parse_vstr_15000 parse_vstr_15010 pyInt_vnum_one rfl rfl).1 "short" (by decide),
   (C4_direction_strict (.vstr "15000") (.vstr "15010") "Micro NASDAQ Futures"
      (.vnum 1) (.vnum 0) (.vnum 0) 15000 15010 1 0 0
      parse_vstr_15000 parse_vstr_15010 pyInt_vnum_one rfl rfl).1 "SHORT" (by decide),
   (C4_direction_strict (.vstr "15000") (.vstr "15010") "Micro NASDAQ Futures"
      (.vnum 1) (.vnum 0) (.vnum 0) 15000 15010 1 0 0
      parse_vstr_15000 parse_vstr_15010 pyInt_vnum_one rfl rfl).2⟩

/-- C6: with commissions and fees both zero, the result for direction
`"Long"` is the negation of the result for `"Short"` on the same
parseable prices, instrument, and contract count. -/
theorem C6_gross_negates_under_flip (entry exit : PyVal) (instrument : String)
    (contracts : PyVal) (e x : ℚ) (c : ℤ)
    (he : pyFloat entry = some e) (hx : pyFloat exit = some x)
    (hc : pyInt contracts = some c) :
    calculate_pnl entry exit instrument "Long" contracts (.vnum 0) (.vnum 0) =
      - calculate_pnl entry exit instrument "Short" contracts (.vnum 0) (.vnum 0) := by
  rw [calculate_pnl_parsed entry exit instrument "Long" contracts (.vnum 0) (.vnum 0)
        e x c 0 0 he hx hc rfl rfl,
      calculate_pnl_parsed entry exit instrument "Short" contracts (.vnum 0) (.vnum 0)
        e x c 0 0 he hx hc rfl rfl,
      if_neg (by decide : ¬ ("Long" = "Short")), if_pos rfl]
  have h : (x - e) * (-1) * instrument_point_value instrument * (c : ℚ) - 0 - 0 =
      -((x - e) * instrument_point_value instrument * (c : ℚ) - 0 - 0) := by ring
  rw [h, pyRound2_neg, neg_neg]

/-- Witness for C6 at the spec's NASDAQ example prices. -/
theorem C6_witness :
    calculate_pnl (.vstr "15000") (.vstr "15010") "Micro NASDAQ Futures" "Long"
      (.vnum 1) (.vnum 0) (.vnum 0) =
      - calculate_pnl (.vstr "15000") (.vstr "15010") "Micro NASDAQ Futures" "Short"
        (.vnum 1) (.vnum 0) (.vnum 0) :=
  C6_gross_negates_under_flip (.vstr "15000") (.vstr "15010") "Micro NASDAQ Futures"
    (.vnum 1) 15000 15010 1 parse_vstr_15000 parse_vstr_15010 pyInt_vnum_one

/-- C8: `calculate_pnl` is deterministic and pure — it is embedded as a
total function of its seven arguments alone (it reads and writes no other
state), so identical argument tuples give identical results. -/
theorem C8_deterministic (e x : PyVal) (i d : String) (c cm f : PyVal)
    (e' x' : PyVal) (i' d' : String) (c' cm' f' : PyVal)
    (h : (e, x, i, d, c, cm, f) = (e', x', i', d', c', cm', f')) :
    calculate_pnl e x i d c cm f = calculate_pnl e' x' i' d' c' cm' f' := by
  simp only [Prod.mk.injEq] at h
  obtain ⟨rfl, rfl, rfl, rfl, rfl, rfl, rfl⟩ := h
  rfl

/-- Witness for C8: two calls with the same concrete arguments agree. -/
theorem C8_witness :
    calculate_pnl (.vstr "15000") (.vstr "15010") "Micro NASDAQ Futures" "Long"
      (.vnum 1) (.vnum 1) (.vnum 1) =
    calculate_pnl (.vstr "15000") (.vstr "15010") "Micro NASDAQ Futures" "Long"
      (.vnum 1) (.vnum 1) (.vnum 1) :=
  C8_deterministic (.vstr "15000") (.vstr "15010") "Micro NASDAQ Futures" "Long"
    (.vnum 1) (.vnum 1) (.vnum 1) (.vstr "15000") (.vstr "15010") "Micro NASDAQ Futures"
    "Long" (.vnum 1) (.vnum 1) (.vnum 1) rfl

/-- C10: no positivity precondition on contracts — with zero contracts
the costs are still subtracted, giving `round(−commissions − fees, 2)`,
and negating the contract count negates the gross component. -/
theorem C10_no_positivity_precondition (entry exit : PyVal) (instrument direction : String)
    (commissions fees : PyVal) (e x cm fe : ℚ)
    (he : pyFloat entry = some e) (hx : pyFloat exit = some x)
    (hcm : pyFloat commissions = some cm) (hf : pyFloat fees = some fe) :
    calculate_pnl entry exit instrument direction (.vnum 0) commissions fees =
      pyRound2 (- cm - fe) ∧
    (∀ c : ℤ,
      calculate_pnl entry exit instrument direction
          (.vnum ((-c : ℤ) : ℚ)) (.vnum 0) (.vnum 0) =
        - calculate_pnl entry exit instrument direction
            (.vnum ((c : ℤ) : ℚ)) (.vnum 0) (.vnum 0)) := by
  constructor
  · have hc0 : pyInt (.vnum 0) = some 0 := by norm_num [pyInt, pyTrunc]
    rw [calculate_pnl_parsed entry exit instrument direction (.vnum 0) commissions fees
          e x 0 cm fe he hx hc0 hcm hf]
    congr 1
    push_cast
    ring
  · intro c
    have hcn : pyInt (.vnum ((-c : ℤ) : ℚ)) = some (-c) := by
      show some (pyTrunc ((-c : ℤ) : ℚ)) = some (-c)
      rw [pyTrunc_intCast]
    have hcp : pyInt (.vnum ((c : ℤ) : ℚ)) = some c := by
      show some (pyTrunc ((c : ℤ) : ℚ)) = some c
      rw [pyTrunc_intCast]
    rw [calculate_pnl_parsed entry exit instrument direction
          (.vnum ((-c : ℤ) : ℚ)) (.vnum 0) (.vnum 0) e x (-c) 0 0 he hx hcn rfl rfl,
        calculate_pnl_parsed entry exit instrument direction
          (.vnum ((c : ℤ) : ℚ)) (.vnum 0) (.vnum 0) e x c 0 0 he hx hcp rfl rfl]
    have h : (if direction = "Short" then (x - e) * (-1) else x - e) *
        instrument_point_value instrument * ((-c : ℤ) : ℚ) - 0 - 0 =
        -((if direction = "Short" then (x - e) * (-1) else x - e) *
          instrument_point_value instrument * ((c : ℤ) : ℚ) - 0 - 0) := by
      push_cast
      ring
    rw [h, pyRound2_neg]

/-- Witness for C10 at zero and negated contract counts. -/
theorem C10_witness :
    calculate_pnl (.vstr "15000") (.vstr "15010") "Micro NASDAQ Futures" "Long"
      (.vnum 0) (.vnum 1) (.vnum 2) = pyRound2 (-1 - 2) ∧
    calculate_pnl (.vstr "15000") (.vstr "15010") "Micro NASDAQ Futures" "Long"
      (.vnum ((-3 : ℤ) : ℚ)) (.vnum 0) (.vnum 0) =
      - calculate_pnl (.vstr "15000") (.vstr "15010") "Micro NASDAQ Futures" "Long"
        (.vnum ((3 : ℤ) : ℚ)) (.vnum 0) (.vnum 0) :=
  ⟨(C10_no_positivity_precondition (.vstr "15000") (.vstr "15010") "Micro NASDAQ Futures"
      "Long" (.vnum 1) (.vnum 2) 15000 15010 1 2
      parse_vstr_15000 parse_vstr_15010 rfl rfl).1,
   (C10_no_positivity_precondition (.vstr "15000") (.vstr "15010") "Micro NASDAQ Futures"
      "Long" (.vnum 1) (.vnum 2) 15000 15010 1 2
      parse_vstr_15000 parse_vstr_15010 rfl rfl).2 3⟩

/-- C5: every record placed into the trade list on form submission
(appended as a new trade or assigned in place on edit) carries a `pnl`
equal to `calculate_pnl` applied to that same record's entry, exit,
instrument, direction, contracts, commissions, and fees; any record in
the updated list is either an old record or the freshly built one. -/
theorem C5_pnl_recomputed_on_save (trades : List Trade) (selected_id : Option String)
    (inp : FormInput) (fresh_id now : String) (result : List Trade × Trade)
    (h : render_trade_form_submit trades selected_id inp fresh_id now = some result) :
    result.2.pnl = calculate_pnl (.vstr result.2.entry) (.vstr result.2.exit)
      result.2.instrument result.2.direction (.vnum result.2.contracts)
      (.vnum result.2.commissions) (.vnum result.2.fees) ∧
    ∀ t ∈ result.1, t ∈ trades ∨ t = result.2 := by
  simp only [render_trade_form_submit] at h
  have hnew : ∀ td : Trade,
      td.pnl = calculate_pnl (.vstr td.entry) (.vstr td.exit) td.instrument td.direction
        (.vnum td.contracts) (.vnum td.commissions) (.vnum td.fees) →
      (trades ++ [td], td) = result →
      result.2.pnl = calculate_pnl (.vstr result.2.entry) (.vstr result.2.exit)
        result.2.instrument result.2.direction (.vnum result.2.contracts)
        (.vnum result.2.commissions) (.vnum result.2.fees) ∧
      ∀ t ∈ result.1, t ∈ trades ∨ t = result.2 := by
    intro td hp heq
    subst heq
    refine ⟨hp, ?_⟩
    intro t ht
    rcases List.mem_append.mp ht with h1 | h1
    · exact Or.inl h1
    · exact Or.inr (List.mem_singleton.mp h1)
  have hedit : ∀ (td : Trade) (idx : ℤ) (l : List Trade),
      td.pnl = calculate_pnl (.vstr td.entry) (.vstr td.exit) td.instrument td.direction
        (.vnum td.contracts) (.vnum td.commissions) (.vnum td.fees) →
      list_set_py trades idx td = some l → (l, td) = result →
      result.2.pnl = calculate_pnl (.vstr result.2.entry) (.vstr result.2.exit)
        result.2.instrument result.2.direction (.vnum result.2.contracts)
        (.vnum result.2.commissions) (.vnum result.2.fees) ∧
      ∀ t ∈ result.1, t ∈ trades ∨ t = result.2 := by
    intro td idx l hp hl heq
    subst heq
    refine ⟨hp, ?_⟩
    intro t ht
    unfold list_set_py at hl
    split_ifs at hl
    all_goals
      injection hl with hl
      subst hl
      exact List.mem_or_eq_of_mem_set ht
  rcases hu : inp.uploaded with _ | (_ | p) <;> simp only [hu] at h
  · rcases selected_id with _ | sid
    · rw [if_pos (by rfl : Option.isNone (none : Option String) = true)] at h
      injection h with h
      exact hnew _ rfl h
    · rw [if_neg (by simp : ¬ Option.isNone (some sid) = true)] at h
      rw [Option.map_eq_some'] at h
      obtain ⟨l, hl, hres⟩ := h
      exact hedit _ _ _ rfl hl hres
  · exact absurd h (by simp)
  · rcases selected_id with _ | sid
    · rw [if_pos (by rfl : Option.isNone (none : Option String) = true)] at h
      injection h with h
      exact hnew _ rfl h
    · rw [if_neg (by simp : ¬ Option.isNone (some sid) = true)] at h
      rw [Option.map_eq_some'] at h
      obtain ⟨l, hl, hres⟩ := h
      exact hedit _ _ _ rfl hl hres


/-- Sample form input for the C5 witness. -/
def sampleInput : FormInput :=
  ⟨"2024-01-01", "Micro NASDAQ Futures", "Long", 1, "15000", "15010", 1, 2,
    "VWAP Rejection", "notes", false, none⟩

/-- The record a fresh submission of `sampleInput` builds. -/
def sampleTrade : Trade :=
  ⟨"id1", "2024-01-01", "Micro NASDAQ Futures", "Long", 1, "15000", "15010", 1, 2,
    calculate_pnl (.vstr "15000") (.vstr "15010") "Micro NASDAQ Futures" "Long"
      (.vnum ((1 : ℤ) : ℚ)) (.vnum 1) (.vnum 2),
    "VWAP Rejection", "notes", none, "ts"⟩

/-- Witness for C5 on a concrete fresh submission. -/
theorem C5_witness :
    sampleTrade.pnl = calculate_pnl (.vstr sampleTrade.entry) (.vstr sampleTrade.exit)
      sampleTrade.instrument sampleTrade.direction (.vnum sampleTrade.contracts)
      (.vnum sampleTrade.commissions) (.vnum sampleTrade.fees) ∧
    ∀ t ∈ [sampleTrade], t ∈ ([] : List Trade) ∨ t = sampleTrade :=
  C5_pnl_recomputed_on_save [] none sampleInput "id1" "ts" ([sampleTrade], sampleTrade) rfl

/-- C7: the form's defaulted commissions equal `0.78 × contracts` and the
defaulted fees equal `1.12 × contracts` for a new trade; for an edited
trade the defaults are the stored `commissions` and `fees` of the record. -/
theorem C7_cost_defaults :
    (∀ (c : ℤ) (selected : Option Trade),
      form_default_costs true selected c =
        (78/100 * (c : ℚ), 112/100 * (c : ℚ))) ∧
    (∀ (c : ℤ) (t : Trade),
      form_default_costs false (some t) c = (t.commissions, t.fees)) := by
  constructor
  · intro c selected
    simp [form_default_costs, DEFAULT_COMMISSION_PER_CONTRACT, DEFAULT_FEES_PER_CONTRACT]
  · intro c t
    simp [form_default_costs]

/-- C9: when the selected trade id is `None`, or no trade in the list has
that id, `delete_selected_trade` leaves the session state unchanged and
does not write the data file. -/
theorem C9_delete_noop (s : SessionState)
    (h : s.selected_trade_id = none ∨
      ∀ tid, s.selected_trade_id = some tid → ∀ t ∈ s.trades, t.id ≠ tid) :
    (delete_selected_trade s).state = s ∧
    (delete_selected_trade s).savedData = none := by
  unfold delete_selected_trade
  rcases hsel : s.selected_trade_id with _ | tid
  · simp [pyTruthyId, hsel]
  · by_cases hemp : tid.isEmpty
    · simp [pyTruthyId, hsel, hemp]
    · have hfind : s.trades.findIdx? (fun t => t.id == tid) = none := by
        rw [List.findIdx?_eq_none_iff]
        intro t ht
        rcases h with h | h
        · rw [hsel] at h; exact absurd h (by simp)
        · have h2 := h tid hsel t ht
          simp [h2]
      simp [pyTruthyId, hsel, hemp, hfind]

/-- Witness for C9: a state whose selected id matches no stored trade is
untouched by the delete handler. -/
theorem C9_witness :
    (delete_selected_trade
      ⟨[⟨"a", "2024-01-01", "Micro NASDAQ Futures", "Long", 1, "15000", "15010",
          1, 1, 0, "", "", none, "t"⟩], some "zzz"⟩).state =
      ⟨[⟨"a", "2024-01-01", "Micro NASDAQ Futures", "Long", 1, "15000", "15010",
          1, 1, 0, "", "", none, "t"⟩], some "zzz"⟩ ∧
    (delete_selected_trade
      ⟨[⟨"a", "2024-01-01", "Micro NASDAQ Futures", "Long", 1, "15000", "15010",
          1, 1, 0, "", "", none, "t"⟩], some "zzz"⟩).savedData = none :=
  C9_delete_noop
    ⟨[⟨"a", "2024-01-01", "Micro NASDAQ Futures", "Long", 1, "15000", "15010",
        1, 1, 0, "", "", none, "t"⟩], some "zzz"⟩
    (Or.inr (by
      intro tid htid t ht
      injection htid with h2
      subst h2
      rw [List.mem_singleton] at ht
      subst ht
      decide))

end Journal
